import Mathlib

set_option maxHeartbeats 1000000

/-! Shallow embedding of the real-time collaborative drawing server: the room
    registry, per-connection stroke assembly, the global undo and redo stacks,
    and broadcast fan-out, together with the client-side echo suppression
    predicate. All definitions are translated from the server message switch
    and its helpers. -/

namespace DrawServer

/-- Geometry payload of one draw segment, as carried in the data field of a
    draw message. -/
structure SegData where
  x : Int
  y : Int
  x2 : Int
  y2 : Int
  color : String
  width : Nat
deriving DecidableEq

/-- Action recorded for one segment: the closure variable userId (null before
    join, hence optional), the tool string (called type in the wire format),
    and the segment data. -/
structure Action where
  userId : Option String
  tool : String
  data : SegData
deriving DecidableEq

/-- Stroke: the list of actions accumulated between startStroke and endStroke,
    committed to history as one unit. -/
abbrev Stroke := List Action

/-- Per user record stored in the users map of a room. -/
structure UserInfo where
  userName : String
  color : String
deriving DecidableEq

/-- Room state: users map (insertion ordered association list), committed
    stroke history, and the redo stack. -/
structure Room where
  users : List (String × UserInfo)
  history : List Stroke
  redoStack : List Stroke
deriving DecidableEq

/-- Fresh room as built by getRoom on first reference. -/
def emptyRoom : Room := ⟨[], [], []⟩

/-- Association list update with JS Map set semantics: replace in place when
    the key is present, otherwise append at the end (insertion order). -/
def mapSet {α : Type} (l : List (String × α)) (k : String) (v : α) :
    List (String × α) :=
  match l with
  | [] => [(k, v)]
  | p :: rest => if p.1 = k then (k, v) :: rest else p :: mapSet rest k v

/-- getRoom: return the room for the id, creating and registering a fresh
    empty room when the id is not yet present. Returns the updated registry
    together with the room. -/
def getRoom (rooms : List (String × Room)) (rid : String) :
    List (String × Room) × Room :=
  match rooms.lookup rid with
  | some r => (rooms, r)
  | none => (rooms ++ [(rid, emptyRoom)], emptyRoom)

/-- Fixed palette used by assignColor. -/
def colors : List String :=
  ["#FF6B6B", "#4ECDC4", "#45B7D1", "#FFA07A", "#98D8C8", "#F7DC6F"]

/-- assignColor picks a palette entry; the random index is passed in
    explicitly in place of Math.random. -/
def assignColor (rand : Nat) : String :=
  colors.getD (rand % colors.length) "#FF6B6B"

/-- Per connection state: the ws object fields (readyState, plus the roomId
    and userId properties set at join) together with the closure variables of
    the message callback (userId, userName, userColor, roomId, and the
    currentStroke accumulator). -/
structure Conn where
  id : Nat
  readyState : Nat
  wsRoomId : Option String
  wsUserId : Option String
  userId : Option String
  userName : Option String
  userColor : Option String
  roomId : String
  currentStroke : List Action
deriving DecidableEq

/-- Fresh connection as initialised by the connection handler before any
    message: readyState open, no join yet, roomId defaulted to default. -/
def newConn (id : Nat) : Conn :=
  ⟨id, 1, none, none, none, none, none, "default", []⟩

/-- Outbound message constructors, one per server-to-client wire type. -/
inductive OutMsg where
  | joined (color : String) (users : List (String × UserInfo))
      (history : List Stroke)
  | userJoined (userId userName color : String)
  | draw (action : Action)
  | cursorMove (userId userName userColor : Option String) (x y : Int)
  | history (history : List Stroke)
deriving DecidableEq

/-- One delivery: the target connection id and the message it is sent. -/
structure Send where
  target : Nat
  msg : OutMsg
deriving DecidableEq

/-- Inbound message constructors, one per client-to-server wire type; other
    stands for a decodable frame whose type matches no switch case. -/
inductive InMsg where
  | join (userId userName : String) (roomId : Option String)
  | startStroke
  | draw (tool : String) (data : SegData)
  | endStroke
  | cursor (x y : Int)
  | undo
  | redo
  | clear
  | other
deriving DecidableEq

/-- Whole server state: the rooms registry and the set of ws clients. -/
structure ServerState where
  rooms : List (String × Room)
  conns : List Conn
deriving DecidableEq

/-- broadcastToRoom loops over all ws clients and sends the message to every
    client whose readyState is 1 and whose roomId property equals the given
    room id. -/
def broadcastToRoom (conns : List Conn) (rid : String) (m : OutMsg) :
    List Send :=
  (conns.filter (fun c => c.readyState == 1 && c.wsRoomId == some rid)).map
    (fun c => ⟨c.id, m⟩)

/-- Body of the undo case on the room: when history is non empty, pop its
    last entry and push it onto the redo stack; otherwise leave the room
    unchanged. -/
def undoRoom (room : Room) : Room :=
  if room.history.length > 0 then
    { room with history := room.history.dropLast,
                redoStack := room.redoStack ++ room.history.getLast?.toList }
  else room

/-- Body of the redo case on the room: when the redo stack is non empty, pop
    its last entry and push it back onto history. -/
def redoRoom (room : Room) : Room :=
  if room.redoStack.length > 0 then
    { room with redoStack := room.redoStack.dropLast,
                history := room.history ++ room.redoStack.getLast?.toList }
  else room

/-- Body of the clear case on the room: empty both stacks. -/
def clearRoom (room : Room) : Room :=
  { room with history := [], redoStack := [] }

/-- Body of the endStroke commit on the room: append the accumulated stroke
    as one history entry and reset the redo stack. -/
def commitRoom (room : Room) (stroke : Stroke) : Room :=
  { room with history := room.history ++ [stroke], redoStack := [] }

/-- Update the closure state of the connection with the given id. -/
def updateConn (conns : List Conn) (cid : Nat) (f : Conn → Conn) :
    List Conn :=
  conns.map (fun c => if c.id = cid then f c else c)

/-- Handler for one parsed message arriving on connection conn, mirroring the
    switch statement of the ws message callback case by case. rand supplies
    the random palette index consumed by assignColor on join. -/
def handle (st : ServerState) (conn : Conn) (msg : InMsg) (rand : Nat) :
    ServerState × List Send :=
  match msg with
  | .join uid uname rid? =>
      let rid := match rid? with
                 | some s => if s == "" then "default" else s
                 | none => "default"
      let color := assignColor rand
      let gr := getRoom st.rooms rid
      let room1 := { gr.2 with users := mapSet gr.2.users uid ⟨uname, color⟩ }
      let rooms2 := mapSet gr.1 rid room1
      let conns1 := updateConn st.conns conn.id (fun c =>
        { c with userId := some uid, userName := some uname,
                 userColor := some color, roomId := rid,
                 wsRoomId := some rid, wsUserId := some uid })
      (⟨rooms2, conns1⟩,
        ⟨conn.id, .joined color room1.users room1.history⟩ ::
          broadcastToRoom conns1 rid (.userJoined uid uname color))
  | .startStroke =>
      (⟨st.rooms,
        updateConn st.conns conn.id (fun c => { c with currentStroke := [] })⟩,
       [])
  | .draw tool dat =>
      let gr := getRoom st.rooms conn.roomId
      let action : Action := ⟨conn.userId, tool, dat⟩
      let conns1 := updateConn st.conns conn.id
        (fun c => { c with currentStroke := c.currentStroke ++ [action] })
      (⟨gr.1, conns1⟩, broadcastToRoom conns1 conn.roomId (.draw action))
  | .endStroke =>
      let gr := getRoom st.rooms conn.roomId
      if conn.currentStroke.length > 0 then
        let rooms2 := mapSet gr.1 conn.roomId (commitRoom gr.2 conn.currentStroke)
        (⟨rooms2,
          updateConn st.conns conn.id (fun c => { c with currentStroke := [] })⟩,
         [])
      else (⟨gr.1, st.conns⟩, [])
  | .cursor x y =>
      (st, broadcastToRoom st.conns conn.roomId
        (.cursorMove conn.userId conn.userName conn.userColor x y))
  | .undo =>
      let gr := getRoom st.rooms conn.roomId
      let room1 := undoRoom gr.2
      (⟨mapSet gr.1 conn.roomId room1, st.conns⟩,
        broadcastToRoom st.conns conn.roomId (.history room1.history))
  | .redo =>
      let gr := getRoom st.rooms conn.roomId
      let room1 := redoRoom gr.2
      (⟨mapSet gr.1 conn.roomId room1, st.conns⟩,
        broadcastToRoom st.conns conn.roomId (.history room1.history))
  | .clear =>
      let gr := getRoom st.rooms conn.roomId
      (⟨mapSet gr.1 conn.roomId (clearRoom gr.2), st.conns⟩,
        broadcastToRoom st.conns conn.roomId (.history []))
  | .other => (st, [])

/-- Top level processing of one raw inbound frame on connection cid. A frame
    that does not parse is modelled as none: the enclosing try block catches
    the JSON.parse exception, logs, and changes nothing. A frame on an
    unknown connection id likewise does nothing. -/
def step (st : ServerState) (cid : Nat) (raw : Option InMsg) (rand : Nat) :
    ServerState × List Send :=
  match raw with
  | none => (st, [])
  | some msg =>
      match st.conns.find? (fun c => c.id == cid) with
      | none => (st, [])
      | some conn => handle st conn msg rand

/-- Client side echo suppression from the draw case of handleMessage: the
    client renders a broadcast draw action only when the action userId
    differs from its own userId. -/
def clientRendersDraw (selfUserId : String) (a : Action) : Bool :=
  a.userId != some selfUserId

/-- History of the room with the given id (a missing room reads as empty). -/
def roomHistory (st : ServerState) (rid : String) : List Stroke :=
  ((st.rooms.lookup rid).getD emptyRoom).history

/-- Redo stack of the room with the given id. -/
def roomRedo (st : ServerState) (rid : String) : List Stroke :=
  ((st.rooms.lookup rid).getD emptyRoom).redoStack

/-- User roster of the room with the given id. -/
def roomUsers (st : ServerState) (rid : String) : List (String × UserInfo) :=
  ((st.rooms.lookup rid).getD emptyRoom).users

/-- Stroke accumulator of the connection with the given id. -/
def connAccum (st : ServerState) (cid : Nat) : Option (List Action) :=
  (st.conns.find? (fun c => c.id == cid)).map Conn.currentStroke

/-- Whether a room with the given id is registered. -/
def roomExists (st : ServerState) (rid : String) : Bool :=
  (st.rooms.lookup rid).isSome

/-- Room states reachable from a fresh room by a sequence of endStroke
    commits (the roster is arbitrary since joins do not touch the stacks;
    each commit appends one stroke and resets the redo stack). -/
inductive CommitReachable : Room → Prop where
  | init (users : List (String × UserInfo)) : CommitReachable ⟨users, [], []⟩
  | commit (room : Room) (s : Stroke) (h : CommitReachable room) :
      CommitReachable (commitRoom room s)

/-- Concrete segment used by witnesses and counterexamples. -/
def seg0 : SegData := ⟨0, 0, 1, 1, "#FF6B6B", 4⟩

/-- Concrete action used by witnesses and counterexamples. -/
def act0 : Action := ⟨some "u0", "stroke", seg0⟩

/-- A connection that has completed a join into the default room. -/
def joinedConn (id : Nat) (uid : String) : Conn :=
  ⟨id, 1, some "default", some uid, some uid, some uid, some "#FF6B6B",
   "default", []⟩

/-- Concrete user record for fixtures. -/
def userU0 : UserInfo := ⟨"u0", "#FF6B6B"⟩

/-- Concrete user record for fixtures. -/
def userU1 : UserInfo := ⟨"u1", "#4ECDC4"⟩

/-- Fixture: two users joined into the default room, empty history. -/
def stDraw : ServerState :=
  ⟨[("default", ⟨[("u0", userU0), ("u1", userU1)], [], []⟩)],
   [joinedConn 0 "u0", joinedConn 1 "u1"]⟩

/-- Fixture connection with one accumulated segment, not yet committed. -/
def connPending : Conn := { joinedConn 0 "u0" with currentStroke := [act0] }

/-- Fixture: one joined user holding a pending stroke, empty history. -/
def stPending : ServerState :=
  ⟨[("default", ⟨[("u0", userU0)], [], []⟩)], [connPending]⟩

/-- Fixture: the default room has one committed stroke, and the only
    connection has never joined. -/
def stPrejoin : ServerState :=
  ⟨[("default", ⟨[], [[act0]], []⟩)], [newConn 0]⟩

/-- Fixture: no rooms registered, one connection that has never joined. -/
def stNoRooms : ServerState := ⟨[], [newConn 0]⟩

/-- Fixture: one joined user, default room with empty stacks. -/
def stEmptyRoom : ServerState :=
  ⟨[("default", ⟨[("u0", userU0)], [], []⟩)], [joinedConn 0 "u0"]⟩

/-- Fixture: default room with history of two strokes and one redo entry,
    two joined users. -/
def stFull : ServerState :=
  ⟨[("default", ⟨[("u0", userU0)], [[act0], [act0]], [[act0]]⟩)],
   [joinedConn 0 "u0", joinedConn 1 "u1"]⟩

/-- Fixture: a connection whose transport has faulted (readyState 3). -/
def faultedConn : Conn := { joinedConn 2 "u2" with readyState := 3 }

/-! Helper lemmas about the association list operations, broadcast fan-out
    and the step function. -/

theorem lookup_append {α : Type} (l rest : List (String × α)) (k : String)
    (h : l.lookup k = none) : (l ++ rest).lookup k = rest.lookup k := by
  induction l with
  | nil => simp
  | cons p l ih =>
    cases hk : (k == p.1) with
    | true => simp [List.lookup, hk] at h
    | false =>
      have h' : l.lookup k = none := by simpa [List.lookup, hk] using h
      simp [List.lookup, hk, ih h']

theorem lookup_mapSet_self {α : Type} (l : List (String × α)) (k : String)
    (v : α) : (mapSet l k v).lookup k = some v := by
  induction l with
  | nil => simp [mapSet, List.lookup]
  | cons p rest ih =>
    by_cases hp : p.1 = k
    · simp [mapSet, hp, List.lookup]
    · have hk : (k == p.1) = false := beq_eq_false_iff_ne.mpr (Ne.symm hp)
      simp [mapSet, hp, List.lookup, hk, ih]

theorem getRoom_snd (rooms : List (String × Room)) (rid : String) :
    (getRoom rooms rid).2 = (rooms.lookup rid).getD emptyRoom := by
  unfold getRoom
  cases h : rooms.lookup rid <;> simp [h]

theorem getRoom_fst_lookup (rooms : List (String × Room)) (rid : String) :
    (getRoom rooms rid).1.lookup rid
      = some ((rooms.lookup rid).getD emptyRoom) := by
  unfold getRoom
  cases h : rooms.lookup rid with
  | none => simp [h, lookup_append rooms _ rid h, List.lookup]
  | some r => simp [h]

theorem updateConn_cons (c : Conn) (l : List Conn) (cid : Nat)
    (f : Conn → Conn) :
    updateConn (c :: l) cid f
      = (if c.id = cid then f c else c) :: updateConn l cid f := rfl

theorem find?_updateConn (conns : List Conn) (cid : Nat) (f : Conn → Conn)
    (hf : ∀ c, (f c).id = c.id) :
    (updateConn conns cid f).find? (fun c => c.id == cid)
      = (conns.find? (fun c => c.id == cid)).map f := by
  induction conns with
  | nil => simp [updateConn]
  | cons c l ih =>
    rw [updateConn_cons]
    by_cases hc : c.id = cid
    · have h1 : ((f c).id == cid) = true := by simp [hf, hc]
      have h2 : (c.id == cid) = true := by simp [hc]
      rw [if_pos hc]
      simp [List.find?_cons, h1, h2]
    · have h1 : ((f c).id == cid) = false := by simp [hf, hc]
      have h2 : (c.id == cid) = false := by simp [hc]
      rw [if_neg hc]
      simpa [List.find?_cons, h1, h2] using ih

theorem broadcastToRoom_cons (c : Conn) (l : List Conn) (rid : String)
    (m : OutMsg) :
    broadcastToRoom (c :: l) rid m
      = (if (c.readyState == 1 && c.wsRoomId == some rid) = true
          then [(⟨c.id, m⟩ : Send)] else [])
        ++ broadcastToRoom l rid m := by
  unfold broadcastToRoom
  by_cases hp : (c.readyState == 1 && c.wsRoomId == some rid) = true
  · simp [List.filter_cons, hp]
  · simp [List.filter_cons, hp]

theorem broadcastToRoom_updateConn (conns : List Conn) (cid : Nat)
    (f : Conn → Conn) (rid : String) (m : OutMsg)
    (hid : ∀ c, (f c).id = c.id)
    (hready : ∀ c, (f c).readyState = c.readyState)
    (hroom : ∀ c, (f c).wsRoomId = c.wsRoomId) :
    broadcastToRoom (updateConn conns cid f) rid m
      = broadcastToRoom conns rid m := by
  induction conns with
  | nil => rfl
  | cons c l ih =>
    rw [updateConn_cons, broadcastToRoom_cons, broadcastToRoom_cons, ih]
    by_cases hc : c.id = cid
    · simp [hc, hid, hready, hroom]
    · simp [hc]

theorem broadcastToRoom_append (l1 l2 : List Conn) (rid : String)
    (m : OutMsg) :
    broadcastToRoom (l1 ++ l2) rid m
      = broadcastToRoom l1 rid m ++ broadcastToRoom l2 rid m := by
  simp [broadcastToRoom, List.filter_append]

theorem broadcastToRoom_cons_faulted (bad : Conn) (l : List Conn)
    (rid : String) (m : OutMsg) (hbad : bad.readyState ≠ 1) :
    broadcastToRoom (bad :: l) rid m = broadcastToRoom l rid m := by
  rw [broadcastToRoom_cons]
  have h : (bad.readyState == 1) = false := beq_eq_false_iff_ne.mpr hbad
  simp [h]

theorem mem_broadcastToRoom (conns : List Conn) (rid : String) (m : OutMsg)
    (conn : Conn) (hmem : conn ∈ conns) (hready : conn.readyState = 1)
    (hroom : conn.wsRoomId = some rid) :
    (⟨conn.id, m⟩ : Send) ∈ broadcastToRoom conns rid m := by
  unfold broadcastToRoom
  have hp : (conn.readyState == 1 && conn.wsRoomId == some rid) = true := by
    simp [hready, hroom]
  exact List.mem_map_of_mem _ (List.mem_filter.mpr ⟨hmem, hp⟩)

theorem step_eq_handle (st : ServerState) (conn : Conn) (msg : InMsg)
    (rand : Nat)
    (hfind : st.conns.find? (fun c => c.id == conn.id) = some conn) :
    step st conn.id (some msg) rand = handle st conn msg rand := by
  unfold step
  rw [hfind]

theorem roomHistory_mapSet (rooms : List (String × Room)) (conns : List Conn)
    (rid : String) (r : Room) :
    roomHistory ⟨mapSet rooms rid r, conns⟩ rid = r.history := by
  simp [roomHistory, lookup_mapSet_self]

theorem roomRedo_mapSet (rooms : List (String × Room)) (conns : List Conn)
    (rid : String) (r : Room) :
    roomRedo ⟨mapSet rooms rid r, conns⟩ rid = r.redoStack := by
  simp [roomRedo, lookup_mapSet_self]

theorem roomUsers_mapSet (rooms : List (String × Room)) (conns : List Conn)
    (rid : String) (r : Room) :
    roomUsers ⟨mapSet rooms rid r, conns⟩ rid = r.users := by
  simp [roomUsers, lookup_mapSet_self]

theorem roomExists_mapSet (rooms : List (String × Room)) (conns : List Conn)
    (rid : String) (r : Room) :
    roomExists ⟨mapSet rooms rid r, conns⟩ rid = true := by
  simp [roomExists, lookup_mapSet_self]

theorem step_undo_result (st : ServerState) (conn : Conn) (rand : Nat)
    (hfind : st.conns.find? (fun c => c.id == conn.id) = some conn) :
    step st conn.id (some .undo) rand
      = (⟨mapSet (getRoom st.rooms conn.roomId).1 conn.roomId
            (undoRoom ((st.rooms.lookup conn.roomId).getD emptyRoom)),
          st.conns⟩,
         broadcastToRoom st.conns conn.roomId
           (.history
             (undoRoom ((st.rooms.lookup conn.roomId).getD emptyRoom)).history)) := by
  rw [step_eq_handle st conn .undo rand hfind]
  simp [handle, getRoom_snd]

theorem step_redo_result (st : ServerState) (conn : Conn) (rand : Nat)
    (hfind : st.conns.find? (fun c => c.id == conn.id) = some conn) :
    step st conn.id (some .redo) rand
      = (⟨mapSet (getRoom st.rooms conn.roomId).1 conn.roomId
            (redoRoom ((st.rooms.lookup conn.roomId).getD emptyRoom)),
          st.conns⟩,
         broadcastToRoom st.conns conn.roomId
           (.history
             (redoRoom ((st.rooms.lookup conn.roomId).getD emptyRoom)).history)) := by
  rw [step_eq_handle st conn .redo rand hfind]
  simp [handle, getRoom_snd]

theorem step_clear_result (st : ServerState) (conn : Conn) (rand : Nat)
    (hfind : st.conns.find? (fun c => c.id == conn.id) = some conn) :
    step st conn.id (some .clear) rand
      = (⟨mapSet (getRoom st.rooms conn.roomId).1 conn.roomId
            (clearRoom ((st.rooms.lookup conn.roomId).getD emptyRoom)),
          st.conns⟩,
         broadcastToRoom st.conns conn.roomId (.history [])) := by
  rw [step_eq_handle st conn .clear rand hfind]
  simp [handle, getRoom_snd]

theorem step_draw_result (st : ServerState) (conn : Conn) (tool : String)
    (dat : SegData) (rand : Nat)
    (hfind : st.conns.find? (fun c => c.id == conn.id) = some conn) :
    step st conn.id (some (.draw tool dat)) rand
      = (⟨(getRoom st.rooms conn.roomId).1,
          updateConn st.conns conn.id
            (fun c => { c with
              currentStroke := c.currentStroke ++ [⟨conn.userId, tool, dat⟩] })⟩,
         broadcastToRoom st.conns conn.roomId
           (.draw ⟨conn.userId, tool, dat⟩)) := by
  rw [step_eq_handle st conn (.draw tool dat) rand hfind]
  simp only [handle]
  rw [broadcastToRoom_updateConn]
  · intro c; rfl
  · intro c; rfl
  · intro c; rfl

/-! Claim theorems. -/

/-- C1: processing an endStroke message when the accumulator of the
    connection is non empty appends exactly one new entry, the accumulated
    segments in order, to the history of its room, clears the redo stack and
    resets the accumulator to empty; when the accumulator is empty, history
    and redo stack are unchanged and nothing is committed. -/
theorem endStroke_commit_spec (st : ServerState) (conn : Conn) (rand : Nat)
    (hfind : st.conns.find? (fun c => c.id == conn.id) = some conn) :
    (conn.currentStroke ≠ [] →
      roomHistory (step st conn.id (some .endStroke) rand).1 conn.roomId
          = roomHistory st conn.roomId ++ [conn.currentStroke]
        ∧ roomRedo (step st conn.id (some .endStroke) rand).1 conn.roomId = []
        ∧ connAccum (step st conn.id (some .endStroke) rand).1 conn.id
          = some [])
    ∧ (conn.currentStroke = [] →
      roomHistory (step st conn.id (some .endStroke) rand).1 conn.roomId
          = roomHistory st conn.roomId
        ∧ roomRedo (step st conn.id (some .endStroke) rand).1 conn.roomId
          = roomRedo st conn.roomId) := by
  rw [step_eq_handle st conn .endStroke rand hfind]
  constructor
  · intro hne
    have hlen : conn.currentStroke.length > 0 := List.length_pos.mpr hne
    simp only [handle, if_pos hlen]
    refine ⟨?_, ?_, ?_⟩
    · rw [roomHistory_mapSet]
      simp [commitRoom, getRoom_snd, roomHistory]
    · rw [roomRedo_mapSet]
      simp [commitRoom]
    · unfold connAccum
      simp only
      rw [find?_updateConn st.conns conn.id
        (fun c => { c with currentStroke := [] }) (fun c => rfl), hfind]
      rfl
  · intro he
    have hlen : ¬ conn.currentStroke.length > 0 := by simp [he]
    simp only [handle, if_neg hlen]
    constructor
    · simp [roomHistory, getRoom_fst_lookup]
    · simp [roomRedo, getRoom_fst_lookup]

/-- C1 witness: committing the pending single segment stroke of the fixture
    appends it as one history entry, clears the redo stack and resets the
    accumulator. -/
theorem endStroke_commit_spec_witness :
    roomHistory (step stPending 0 (some .endStroke) 0).1 "default"
        = roomHistory stPending "default" ++ [[act0]]
      ∧ roomRedo (step stPending 0 (some .endStroke) 0).1 "default" = []
      ∧ connAccum (step stPending 0 (some .endStroke) 0).1 0 = some [] :=
  (endStroke_commit_spec stPending connPending 0 (by decide)).1 (by decide)

/-- C2: for every room state reachable by a sequence of endStroke commits,
    an undo followed immediately by a redo restores the history to its value
    before the undo. -/
theorem undo_redo_roundtrip (room : Room) (h : CommitReachable room) :
    (redoRoom (undoRoom room)).history = room.history := by
  by_cases hh : room.history = []
  · have hr : room.redoStack = [] := by
      cases h with
      | init users => rfl
      | commit room' s h' => rfl
    unfold undoRoom
    rw [if_neg (by simp [hh])]
    unfold redoRoom
    rw [if_neg (by simp [hr])]
  · have hlen : room.history.length > 0 := List.length_pos.mpr hh
    have hx : room.history.getLast? = some (room.history.getLast hh) :=
      List.getLast?_eq_getLast room.history hh
    unfold undoRoom redoRoom
    rw [if_pos hlen]
    simp only [hx, Option.toList_some]
    rw [if_pos (by simp)]
    simp [List.getLast?_concat, List.dropLast_append_getLast hh]

/-- C2 witness: the round trip on the one commit room restores its
    history. -/
theorem undo_redo_roundtrip_witness :
    (redoRoom (undoRoom (commitRoom ⟨[], [], []⟩ [act0]))).history
      = (commitRoom ⟨[], [], []⟩ [act0]).history :=
  undo_redo_roundtrip (commitRoom ⟨[], [], []⟩ [act0])
    (CommitReachable.commit ⟨[], [], []⟩ [act0] (CommitReachable.init []))

/-- C3 counterexample: committing the pending stroke via endStroke in the
    fixture mutates the history of the room yet emits no broadcast at all,
    so it is false that every mutation of history or redo stack is
    immediately followed by a full state broadcast. -/
theorem commit_broadcast_counterexample :
    roomHistory (step stPending 0 (some .endStroke) 0).1 "default"
        ≠ roomHistory stPending "default"
      ∧ (step stPending 0 (some .endStroke) 0).2 = [] := by decide

/-- C3 amended: undo, redo and clear are each immediately followed by a full
    state broadcast of the resulting history of the room to its participants;
    a stroke commit (endStroke), although it mutates history and redo stack,
    emits no broadcast (its segments were already broadcast live during
    drawing). -/
theorem mutation_broadcast_amended (st : ServerState) (conn : Conn)
    (rand : Nat)
    (hfind : st.conns.find? (fun c => c.id == conn.id) = some conn) :
    (step st conn.id (some .undo) rand).2
        = broadcastToRoom st.conns conn.roomId
            (.history
              (undoRoom ((st.rooms.lookup conn.roomId).getD emptyRoom)).history)
      ∧ (step st conn.id (some .redo) rand).2
        = broadcastToRoom st.conns conn.roomId
            (.history
              (redoRoom ((st.rooms.lookup conn.roomId).getD emptyRoom)).history)
      ∧ (step st conn.id (some .clear) rand).2
        = broadcastToRoom st.conns conn.roomId (.history [])
      ∧ (step st conn.id (some .endStroke) rand).2 = [] := by
  refine ⟨?_, ?_, ?_, ?_⟩
  · rw [step_undo_result st conn rand hfind]
  · rw [step_redo_result st conn rand hfind]
  · rw [step_clear_result st conn rand hfind]
  · rw [step_eq_handle st conn .endStroke rand hfind]
    simp only [handle]
    split <;> rfl

/-- C3 amended witness at the populated fixture room. -/
theorem mutation_broadcast_amended_witness :
    (step stFull 0 (some .undo) 0).2
        = broadcastToRoom stFull.conns "default"
            (.history
              (undoRoom ((stFull.rooms.lookup "default").getD emptyRoom)).history)
      ∧ (step stFull 0 (some .redo) 0).2
        = broadcastToRoom stFull.conns "default"
            (.history
              (redoRoom ((stFull.rooms.lookup "default").getD emptyRoom)).history)
      ∧ (step stFull 0 (some .clear) 0).2
        = broadcastToRoom stFull.conns "default" (.history [])
      ∧ (step stFull 0 (some .endStroke) 0).2 = [] :=
  mutation_broadcast_amended stFull (joinedConn 0 "u0") 0 (by decide)

/-- C4 counterexample: when connection 0 draws in the two user fixture, the
    server delivers the draw broadcast to connection 0 itself as well (the
    target list is [0, 1]), so the broadcast is not delivered only to the
    joined connections other than the originator. -/
theorem draw_echo_counterexample :
    (⟨0, .draw ⟨some "u0", "stroke", seg0⟩⟩ : Send)
        ∈ (step stDraw 0 (some (.draw "stroke" seg0)) 0).2
      ∧ (step stDraw 0 (some (.draw "stroke" seg0)) 0).2.map Send.target
        = [0, 1] := by decide

/-- C4 amended: the server delivers every draw broadcast to all open
    connections joined to the room, the originating connection included;
    echo suppression happens client side instead: the originating client
    does not render an action carrying its own userId. -/
theorem draw_fanout_amended (st : ServerState) (conn : Conn) (tool : String)
    (dat : SegData) (rand : Nat)
    (hfind : st.conns.find? (fun c => c.id == conn.id) = some conn) :
    (step st conn.id (some (.draw tool dat)) rand).2
        = broadcastToRoom st.conns conn.roomId
            (.draw ⟨conn.userId, tool, dat⟩)
      ∧ (conn.readyState = 1 → conn.wsRoomId = some conn.roomId →
          (⟨conn.id, .draw ⟨conn.userId, tool, dat⟩⟩ : Send)
            ∈ (step st conn.id (some (.draw tool dat)) rand).2)
      ∧ (∀ uid : String, conn.userId = some uid →
          clientRendersDraw uid ⟨conn.userId, tool, dat⟩ = false) := by
  have hdraw := step_draw_result st conn tool dat rand hfind
  refine ⟨?_, ?_, ?_⟩
  · rw [hdraw]
  · intro h1 h2
    rw [hdraw]
    exact mem_broadcastToRoom st.conns conn.roomId _ conn
      (List.mem_of_find?_eq_some hfind) h1 h2
  · intro uid huid
    simp [clientRendersDraw, huid]

/-- C4 amended witness: in the two user fixture the draw fan-out reaches the
    originator, and the originating client suppresses its own action. -/
theorem draw_fanout_amended_witness :
    (step stDraw 0 (some (.draw "stroke" seg0)) 0).2
        = broadcastToRoom stDraw.conns "default"
            (.draw ⟨some "u0", "stroke", seg0⟩)
      ∧ (⟨0, .draw ⟨some "u0", "stroke", seg0⟩⟩ : Send)
        ∈ (step stDraw 0 (some (.draw "stroke" seg0)) 0).2
      ∧ clientRendersDraw "u0" ⟨some "u0", "stroke", seg0⟩ = false := by
  have h := draw_fanout_amended stDraw (joinedConn 0 "u0") "stroke" seg0 0
    (by decide)
  exact ⟨h.1, h.2.1 rfl rfl, h.2.2 "u0" rfl⟩

/-- C5: processing a clear message empties both history and redo stack of
    the room of the issuer, whatever their previous contents, and broadcasts
    the empty history to every open connection joined to that room, the
    issuer included. -/
theorem clear_spec (st : ServerState) (conn : Conn) (rand : Nat)
    (hfind : st.conns.find? (fun c => c.id == conn.id) = some conn) :
    roomHistory (step st conn.id (some .clear) rand).1 conn.roomId = []
      ∧ roomRedo (step st conn.id (some .clear) rand).1 conn.roomId = []
      ∧ (step st conn.id (some .clear) rand).2
        = broadcastToRoom st.conns conn.roomId (.history [])
      ∧ (conn.readyState = 1 → conn.wsRoomId = some conn.roomId →
          (⟨conn.id, .history []⟩ : Send)
            ∈ (step st conn.id (some .clear) rand).2) := by
  have hres := step_clear_result st conn rand hfind
  refine ⟨?_, ?_, ?_, ?_⟩
  · rw [hres, roomHistory_mapSet]
    rfl
  · rw [hres, roomRedo_mapSet]
    rfl
  · rw [hres]
  · intro h1 h2
    rw [hres]
    exact mem_broadcastToRoom st.conns conn.roomId _ conn
      (List.mem_of_find?_eq_some hfind) h1 h2

/-- C5 witness: clearing the populated fixture room from connection 1 resets
    both stacks and the issuer receives the empty history broadcast. -/
theorem clear_spec_witness :
    roomHistory (step stFull 1 (some .clear) 0).1 "default" = []
      ∧ roomRedo (step stFull 1 (some .clear) 0).1 "default" = []
      ∧ (step stFull 1 (some .clear) 0).2
        = broadcastToRoom stFull.conns "default" (.history [])
      ∧ (⟨1, .history []⟩ : Send) ∈ (step stFull 1 (some .clear) 0).2 := by
  have h := clear_spec stFull (joinedConn 1 "u1") 0 (by decide)
  exact ⟨h.1, h.2.1, h.2.2.1, h.2.2.2 rfl rfl⟩

/-- C6: an undo processed while the history of the room is empty, and a redo
    processed while its redo stack is empty, are no-ops on the room state:
    history, redo stack and the user roster keep their values and the client
    set is untouched; the handler is a total function, so no error is
    raised. -/
theorem empty_stack_noop (st : ServerState) (conn : Conn) (rand : Nat)
    (room : Room)
    (hfind : st.conns.find? (fun c => c.id == conn.id) = some conn)
    (hroom : st.rooms.lookup conn.roomId = some room) :
    (room.history = [] →
      roomHistory (step st conn.id (some .undo) rand).1 conn.roomId
          = room.history
        ∧ roomRedo (step st conn.id (some .undo) rand).1 conn.roomId
          = room.redoStack
        ∧ roomUsers (step st conn.id (some .undo) rand).1 conn.roomId
          = room.users
        ∧ (step st conn.id (some .undo) rand).1.conns = st.conns)
    ∧ (room.redoStack = [] →
      roomHistory (step st conn.id (some .redo) rand).1 conn.roomId
          = room.history
        ∧ roomRedo (step st conn.id (some .redo) rand).1 conn.roomId
          = room.redoStack
        ∧ roomUsers (step st conn.id (some .redo) rand).1 conn.roomId
          = room.users
        ∧ (step st conn.id (some .redo) rand).1.conns = st.conns) := by
  constructor
  · intro hh
    have hres := step_undo_result st conn rand hfind
    have hu : undoRoom ((st.rooms.lookup conn.roomId).getD emptyRoom)
        = room := by
      rw [hroom]
      simp only [Option.getD_some]
      unfold undoRoom
      rw [if_neg (by simp [hh])]
    refine ⟨?_, ?_, ?_, ?_⟩
    · rw [hres, hu, roomHistory_mapSet]
    · rw [hres, hu, roomRedo_mapSet]
    · rw [hres, hu, roomUsers_mapSet]
    · rw [hres]
  · intro hr
    have hres := step_redo_result st conn rand hfind
    have hu : redoRoom ((st.rooms.lookup conn.roomId).getD emptyRoom)
        = room := by
      rw [hroom]
      simp only [Option.getD_some]
      unfold redoRoom
      rw [if_neg (by simp [hr])]
    refine ⟨?_, ?_, ?_, ?_⟩
    · rw [hres, hu, roomHistory_mapSet]
    · rw [hres, hu, roomRedo_mapSet]
    · rw [hres, hu, roomUsers_mapSet]
    · rw [hres]

/-- C6 witness: on the fixture room with both stacks empty, undo and redo
    leave history, redo stack, roster and client set unchanged. -/
theorem empty_stack_noop_witness :
    (roomHistory (step stEmptyRoom 0 (some .undo) 0).1 "default" = []
      ∧ roomRedo (step stEmptyRoom 0 (some .undo) 0).1 "default" = []
      ∧ roomUsers (step stEmptyRoom 0 (some .undo) 0).1 "default"
        = [("u0", userU0)]
      ∧ (step stEmptyRoom 0 (some .undo) 0).1.conns = stEmptyRoom.conns)
    ∧ (roomHistory (step stEmptyRoom 0 (some .redo) 0).1 "default" = []
      ∧ roomRedo (step stEmptyRoom 0 (some .redo) 0).1 "default" = []
      ∧ roomUsers (step stEmptyRoom 0 (some .redo) 0).1 "default"
        = [("u0", userU0)]
      ∧ (step stEmptyRoom 0 (some .redo) 0).1.conns = stEmptyRoom.conns) := by
  have h := empty_stack_noop stEmptyRoom (joinedConn 0 "u0") 0
    ⟨[("u0", userU0)], [], []⟩ (by decide) (by decide)
  exact ⟨h.1 rfl, h.2 rfl⟩

/-- C7: a malformed frame (a JSON parse failure, modelled as none) and a
    decodable frame whose type matches no switch case are discarded: the
    whole server state, every room and the full connection set included, is
    unchanged and nothing is sent; processing is a total function, so the
    connection is never terminated. -/
theorem malformed_discarded (st : ServerState) (cid rand : Nat) :
    step st cid none rand = (st, [])
      ∧ step st cid (some .other) rand = (st, []) := by
  constructor
  · rfl
  · unfold step
    cases h : st.conns.find? (fun c => c.id == cid) with
    | none => rfl
    | some conn => rfl

/-- C8: a faulted connection (readyState other than 1) anywhere in the
    client set is skipped by the broadcast loop: delivery is exactly the
    delivery to the remaining clients, and the room state produced by the
    originating command does not depend on the presence of the faulted
    client. -/
theorem broadcast_fault_isolation (pre post : List Conn) (bad : Conn)
    (hbad : bad.readyState ≠ 1) (rid : String) (m : OutMsg)
    (rooms : List (String × Room)) (cid rand : Nat) (conn : Conn)
    (msg : InMsg)
    (h1 : (pre ++ bad :: post).find? (fun c => c.id == cid) = some conn)
    (h2 : (pre ++ post).find? (fun c => c.id == cid) = some conn) :
    broadcastToRoom (pre ++ bad :: post) rid m
        = broadcastToRoom pre rid m ++ broadcastToRoom post rid m
      ∧ (step ⟨rooms, pre ++ bad :: post⟩ cid (some msg) rand).1.rooms
        = (step ⟨rooms, pre ++ post⟩ cid (some msg) rand).1.rooms := by
  constructor
  · rw [broadcastToRoom_append,
      broadcastToRoom_cons_faulted bad post rid m hbad]
  · have hcid : conn.id = cid := by
      have hp := List.find?_some h1
      simpa using hp
    subst hcid
    rw [step_eq_handle ⟨rooms, pre ++ bad :: post⟩ conn msg rand h1,
      step_eq_handle ⟨rooms, pre ++ post⟩ conn msg rand h2]
    cases msg <;> simp only [handle] <;> first | rfl | (split <;> rfl)

/-- C8 witness: with a faulted connection between two open ones, delivery
    equals delivery to the two open ones and a clear issued by connection 0
    yields the same rooms either way. -/
theorem broadcast_fault_isolation_witness :
    broadcastToRoom ([joinedConn 0 "u0"] ++ faultedConn :: [joinedConn 1 "u1"])
        "default" (.history [])
        = broadcastToRoom [joinedConn 0 "u0"] "default" (.history [])
          ++ broadcastToRoom [joinedConn 1 "u1"] "default" (.history [])
      ∧ (step ⟨stFull.rooms, [joinedConn 0 "u0"] ++ faultedConn ::
            [joinedConn 1 "u1"]⟩ 0 (some .clear) 0).1.rooms
        = (step ⟨stFull.rooms, [joinedConn 0 "u0"] ++ [joinedConn 1 "u1"]⟩ 0
            (some .clear) 0).1.rooms :=
  broadcast_fault_isolation [joinedConn 0 "u0"] [joinedConn 1 "u1"]
    faultedConn (by decide) "default" (.history []) stFull.rooms 0 0
    (joinedConn 0 "u0") .clear (by decide) (by decide)

/-- C9 counterexample: an undo arriving before any join on the connection
    pops the history of the room default (mutating an existing room), and
    when no room exists yet the same pre join undo creates the room default,
    so such commands are not ignored no-ops. -/
theorem prejoin_counterexample :
    roomHistory (step stPrejoin 0 (some .undo) 0).1 "default" = []
      ∧ roomHistory stPrejoin "default" = [[act0]]
      ∧ roomRedo (step stPrejoin 0 (some .undo) 0).1 "default" = [[act0]]
      ∧ roomExists stNoRooms "default" = false
      ∧ roomExists (step stNoRooms 0 (some .undo) 0).1 "default" = true := by
  decide

/-- C9 amended: an undo, redo or clear received before a successful join is
    handled with the connection fallback room id default: the room default is
    created when absent and its stacks are mutated exactly as the
    corresponding room operation prescribes, instead of the command being
    ignored. -/
theorem prejoin_default_room_amended (st : ServerState) (conn : Conn)
    (rand : Nat)
    (hfind : st.conns.find? (fun c => c.id == conn.id) = some conn)
    (hpre : conn.roomId = "default") :
    (roomHistory (step st conn.id (some .undo) rand).1 "default"
        = (undoRoom ((st.rooms.lookup "default").getD emptyRoom)).history
      ∧ roomRedo (step st conn.id (some .undo) rand).1 "default"
        = (undoRoom ((st.rooms.lookup "default").getD emptyRoom)).redoStack)
    ∧ (roomHistory (step st conn.id (some .redo) rand).1 "default"
        = (redoRoom ((st.rooms.lookup "default").getD emptyRoom)).history
      ∧ roomRedo (step st conn.id (some .redo) rand).1 "default"
        = (redoRoom ((st.rooms.lookup "default").getD emptyRoom)).redoStack)
    ∧ (roomHistory (step st conn.id (some .clear) rand).1 "default" = []
      ∧ roomRedo (step st conn.id (some .clear) rand).1 "default" = [])
    ∧ roomExists (step st conn.id (some .undo) rand).1 "default" = true := by
  refine ⟨⟨?_, ?_⟩, ⟨?_, ?_⟩, ⟨?_, ?_⟩, ?_⟩
  · rw [step_undo_result st conn rand hfind, hpre, roomHistory_mapSet]
  · rw [step_undo_result st conn rand hfind, hpre, roomRedo_mapSet]
  · rw [step_redo_result st conn rand hfind, hpre, roomHistory_mapSet]
  · rw [step_redo_result st conn rand hfind, hpre, roomRedo_mapSet]
  · rw [step_clear_result st conn rand hfind, hpre, roomHistory_mapSet]
    rfl
  · rw [step_clear_result st conn rand hfind, hpre, roomRedo_mapSet]
    rfl
  · rw [step_undo_result st conn rand hfind, hpre, roomExists_mapSet]

/-- C9 amended witness: the pre join undo on the fixture acts on the room
    default as the room level undo operation. -/
theorem prejoin_default_room_amended_witness :
    (roomHistory (step stPrejoin 0 (some .undo) 0).1 "default"
        = (undoRoom ((stPrejoin.rooms.lookup "default").getD emptyRoom)).history
      ∧ roomRedo (step stPrejoin 0 (some .undo) 0).1 "default"
        = (undoRoom ((stPrejoin.rooms.lookup "default").getD emptyRoom)).redoStack)
    ∧ (roomHistory (step stPrejoin 0 (some .redo) 0).1 "default"
        = (redoRoom ((stPrejoin.rooms.lookup "default").getD emptyRoom)).history
      ∧ roomRedo (step stPrejoin 0 (some .redo) 0).1 "default"
        = (redoRoom ((stPrejoin.rooms.lookup "default").getD emptyRoom)).redoStack)
    ∧ (roomHistory (step stPrejoin 0 (some .clear) 0).1 "default" = []
      ∧ roomRedo (step stPrejoin 0 (some .clear) 0).1 "default" = [])
    ∧ roomExists (step stPrejoin 0 (some .undo) 0).1 "default" = true :=
  prejoin_default_room_amended stPrejoin (newConn 0) 0 (by decide) rfl

/-- C10: each undo and each redo message produces exactly the fan-out of a
    single history broadcast to the room of the issuer, and the broadcast is
    unconditional: when the corresponding stack is empty the same broadcast
    is still emitted, carrying the unchanged history. -/
theorem undo_redo_broadcast_unconditional (st : ServerState) (conn : Conn)
    (rand : Nat)
    (hfind : st.conns.find? (fun c => c.id == conn.id) = some conn) :
    ((step st conn.id (some .undo) rand).2
        = broadcastToRoom st.conns conn.roomId
            (.history
              (undoRoom ((st.rooms.lookup conn.roomId).getD emptyRoom)).history))
      ∧ ((step st conn.id (some .redo) rand).2
        = broadcastToRoom st.conns conn.roomId
            (.history
              (redoRoom ((st.rooms.lookup conn.roomId).getD emptyRoom)).history))
      ∧ (roomHistory st conn.roomId = [] →
          (step st conn.id (some .undo) rand).2
            = broadcastToRoom st.conns conn.roomId
                (.history (roomHistory st conn.roomId)))
      ∧ (roomRedo st conn.roomId = [] →
          (step st conn.id (some .redo) rand).2
            = broadcastToRoom st.conns conn.roomId
                (.history (roomHistory st conn.roomId))) := by
  refine ⟨?_, ?_, ?_, ?_⟩
  · rw [step_undo_result st conn rand hfind]
  · rw [step_redo_result st conn rand hfind]
  · intro hh
    have hh' : ((st.rooms.lookup conn.roomId).getD emptyRoom).history
        = [] := hh
    have hempty : undoRoom ((st.rooms.lookup conn.roomId).getD emptyRoom)
        = (st.rooms.lookup conn.roomId).getD emptyRoom := by
      unfold undoRoom
      rw [if_neg (by simp [hh'])]
    rw [step_undo_result st conn rand hfind, hempty]
    rfl
  · intro hr
    have hr' : ((st.rooms.lookup conn.roomId).getD emptyRoom).redoStack
        = [] := hr
    have hempty : redoRoom ((st.rooms.lookup conn.roomId).getD emptyRoom)
        = (st.rooms.lookup conn.roomId).getD emptyRoom := by
      unfold redoRoom
      rw [if_neg (by simp [hr'])]
    rw [step_redo_result st conn rand hfind, hempty]
    rfl

/-- C10 witness: on the fixture room with both stacks empty the undo and the
    redo each still emit the history broadcast, carrying the unchanged
    (empty) history. -/
theorem undo_redo_broadcast_unconditional_witness :
    ((step stEmptyRoom 0 (some .undo) 0).2
        = broadcastToRoom stEmptyRoom.conns "default"
            (.history
              (undoRoom ((stEmptyRoom.rooms.lookup "default").getD
                emptyRoom)).history))
      ∧ ((step stEmptyRoom 0 (some .redo) 0).2
        = broadcastToRoom stEmptyRoom.conns "default"
            (.history
              (redoRoom ((stEmptyRoom.rooms.lookup "default").getD
                emptyRoom)).history))
      ∧ ((step stEmptyRoom 0 (some .undo) 0).2
        = broadcastToRoom stEmptyRoom.conns "default"
            (.history (roomHistory stEmptyRoom "default")))
      ∧ ((step stEmptyRoom 0 (some .redo) 0).2
        = broadcastToRoom stEmptyRoom.conns "default"
            (.history (roomHistory stEmptyRoom "default"))) := by
  have h := undo_redo_broadcast_unconditional stEmptyRoom (joinedConn 0 "u0")
    0 (by decide)
  exact ⟨h.1, h.2.1, h.2.2.1 rfl, h.2.2.2 rfl⟩

end DrawServer
